import Mathlib

/-!
Verification of the minimarket ledger and series projector.

Shallow embedding of the state-bearing core of the `minimarket-inventario`
application (React/TypeScript).  The embedded pieces are:

* the data model (`types.ts`): `Product`, `InvoiceItem`, `Invoice`;
* the ledger operations of `App.tsx`: `handleAddProduct`,
  `handleUpdateProduct`, `handleDeleteProduct`, `handleAddInvoice`;
* the commit path of `components/Billing.tsx`: `handleSaveInvoice`;
* the aggregate queries of `components/Dashboard.tsx`: `lowStockProducts`,
  `totalInventoryCost`, `totalPotentialRevenue`, `totalSales`,
  `totalPurchases`, `netProfit`;
* the two chart/projection pipelines, `Dashboard.generateChartData`
  (financial series) and `ProductAnalytics.generateChartData`
  (per-product series).

Embedding conventions:

* JS numbers are modelled as `Int` where the source stores counts
  (stock, quantity) and as `ℚ` where it stores money or averages.
  Float rounding is not modelled (all amounts in the app are small
  integers; the projector's variance is explicitly cosmetic).
* `"YYYY-MM-DD"` date strings are modelled by their calendar day number
  `d : Int`; `new Date("YYYY-MM-DD")` is the instant `d * msPerDay`
  (UTC midnight).  `new Date()` ("now") is an arbitrary instant
  `now : Int` in milliseconds.  The runtime is assumed to be UTC, so
  `setDate(getDate() - n)` subtracts exactly `n * msPerDay`
  milliseconds (no DST jumps).
* `Math.random()` is modelled by an oracle `rnd : ℕ → ℚ` producing the
  successive outputs of the generator; its codomain contract
  `0 ≤ rnd i < 1` is carried as a hypothesis where needed.
* `crypto.randomUUID()` is modelled by an explicit `uid` argument.
-/

namespace Minimarket

/-! ## Data model (`types.ts`) -/

/-- Embeds `Product` from `types.ts`.  `lastRestocked` is a calendar day number. -/
structure Product where
  id : String
  name : String
  category : String
  currentStock : Int
  minStock : Int
  price : ℚ
  cost : ℚ
  lastRestocked : Int
  deriving Repr, DecidableEq

/-- Embeds `InvoiceType` from `types.ts`. -/
inductive InvoiceType where
  | SALE
  | PURCHASE
  deriving Repr, DecidableEq

/-- Embeds `InvoiceItem` from `types.ts`. -/
structure InvoiceItem where
  productId : String
  productName : String
  quantity : Int
  unitPrice : ℚ
  total : ℚ
  deriving Repr, DecidableEq

/-- Embeds `Invoice` from `types.ts` (the optional `notes` field is never read by
the embedded logic and is omitted).  `date` is a calendar day number. -/
structure Invoice where
  id : String
  type : InvoiceType
  date : Int
  items : List InvoiceItem
  totalAmount : ℚ
  deriving Repr, DecidableEq

/-- The two `useState` cells of `App.tsx` that hold ledger state. -/
structure AppState where
  products : List Product
  invoices : List Invoice
  deriving Repr, DecidableEq

/-! ## Ledger operations (`App.tsx`) -/

/-- Embeds `handleAddProduct` in `App.tsx`: `setProducts([...products, newProduct])`. -/
def handleAddProduct (newProduct : Product) (s : AppState) : AppState :=
  { s with products := s.products ++ [newProduct] }

/-- Embeds `handleUpdateProduct` in `App.tsx`:
`setProducts(products.map(p => p.id === updatedProduct.id ? updatedProduct : p))`. -/
def handleUpdateProduct (updatedProduct : Product) (s : AppState) : AppState :=
  { s with products :=
      s.products.map (fun p => if p.id = updatedProduct.id then updatedProduct else p) }

/-- Embeds `handleDeleteProduct` in `App.tsx`:
`setProducts(products.filter(p => p.id !== id))`. -/
def handleDeleteProduct (id : String) (s : AppState) : AppState :=
  { s with products := s.products.filter (fun p => p.id ≠ id) }

/-- The body of the `products.map` callback in `handleAddInvoice`
(`App.tsx`): look up the first line item referencing `p` with
`newInvoice.items.find(i => i.productId === p.id)`; on a SALE clamp the
decremented stock at `0` with `Math.max`, on a PURCHASE increment the
stock and stamp `lastRestocked` with the invoice date. -/
def applyInvoiceToProduct (newInvoice : Invoice) (p : Product) : Product :=
  match newInvoice.items.find? (fun i => i.productId = p.id) with
  | some itemInInvoice =>
      match newInvoice.type with
      | .SALE =>
          { p with currentStock := max 0 (p.currentStock - itemInInvoice.quantity) }
      | .PURCHASE =>
          { p with currentStock := p.currentStock + itemInInvoice.quantity,
                   lastRestocked := newInvoice.date }
  | none => p

/-- Embeds `handleAddInvoice` in `App.tsx`: append the invoice to the history,
then map the stock update over the catalog. -/
def handleAddInvoice (newInvoice : Invoice) (s : AppState) : AppState :=
  { products := s.products.map (applyInvoiceToProduct newInvoice),
    invoices := s.invoices ++ [newInvoice] }

/-! ## Commit path (`components/Billing.tsx`) -/

/-- Embeds `handleSaveInvoice` in `Billing.tsx`: bail out silently when the item
list is empty (`if (currentItems.length === 0) return;`), otherwise build
the invoice (`totalAmount` = `reduce((sum, item) => sum + item.total, 0)`)
and hand it to `onAddInvoice` = `handleAddInvoice`.  `uid` stands for
`crypto.randomUUID()` and `today` for the current calendar day. -/
def handleSaveInvoice (uid : String) (invoiceType : InvoiceType) (today : Int)
    (currentItems : List InvoiceItem) (s : AppState) : AppState :=
  if currentItems.isEmpty then s
  else
    handleAddInvoice
      { id := uid, type := invoiceType, date := today, items := currentItems,
        totalAmount := currentItems.foldl (fun sum item => sum + item.total) 0 } s

/-! ## Time model shared by both chart pipelines -/

/-- Milliseconds per day; `new Date("YYYY-MM-DD")` for calendar day `d`
is the instant `d * msPerDay`. -/
def msPerDay : Int := 86400000

/-- The WEEK | MONTH | YEAR time-range selector. -/
inductive TimeRange where
  | WEEK
  | MONTH
  | YEAR
  deriving Repr, DecidableEq

/-- Embeds `timeRange === WEEK ? 7 : timeRange === MONTH ? 30 : 365`. -/
def rangeDays : TimeRange → Int
  | .WEEK => 7
  | .MONTH => 30
  | .YEAR => 365

/-- Embeds `Math.round`: round half away from zero toward positive infinity
(JS semantics), i.e. `⌊q + 1/2⌋`. -/
def jsRound (q : ℚ) : Int := ⌊q + 1 / 2⌋

/-- Insert an element into a list sorted ascending by the `date` key. -/
def insertByDate {α : Type*} (key : α → Int) (x : α) : List α → List α
  | [] => [x]
  | y :: ys => if key x ≤ key y then x :: y :: ys else y :: insertByDate key x ys

/-- Embeds `.sort((a, b) => new Date(a.date).getTime() - new Date(b.date).getTime())`:
both pipelines sort their date buckets ascending by date (the bucket
dates are pairwise distinct, so any correct sort produces the same
list). -/
def sortByDate {α : Type*} (key : α → Int) (l : List α) : List α :=
  l.foldr (insertByDate key) []

namespace Dashboard

/-! ## Aggregate queries (`components/Dashboard.tsx`) -/

/-- Embeds `products.filter(p => p.currentStock <= p.minStock)`. -/
def lowStockProducts (products : List Product) : List Product :=
  products.filter (fun p => p.currentStock ≤ p.minStock)

/-- Embeds `products.reduce((acc, p) => acc + (p.currentStock * p.cost), 0)`. -/
def totalInventoryCost (products : List Product) : ℚ :=
  products.foldl (fun acc p => acc + (p.currentStock : ℚ) * p.cost) 0

/-- Embeds `products.reduce((acc, p) => acc + (p.currentStock * p.price), 0)`. -/
def totalPotentialRevenue (products : List Product) : ℚ :=
  products.foldl (fun acc p => acc + (p.currentStock : ℚ) * p.price) 0

/-- Embeds `invoices.filter(i => i.type === SALE).reduce((acc, i) => acc + i.totalAmount, 0)`. -/
def totalSales (invoices : List Invoice) : ℚ :=
  (invoices.filter (fun i => i.type = InvoiceType.SALE)).foldl
    (fun acc i => acc + i.totalAmount) 0

/-- Embeds `invoices.filter(i => i.type === PURCHASE).reduce((acc, i) => acc + i.totalAmount, 0)`. -/
def totalPurchases (invoices : List Invoice) : ℚ :=
  (invoices.filter (fun i => i.type = InvoiceType.PURCHASE)).foldl
    (fun acc i => acc + i.totalAmount) 0

/-- Embeds `const netProfit = totalSales - totalPurchases`. -/
def netProfit (invoices : List Invoice) : ℚ :=
  totalSales invoices - totalPurchases invoices

/-! ## Financial chart pipeline (`generateChartData` in `Dashboard.tsx`) -/

/-- One element of the `chartData` array: a date bucket carrying the
real `sales`/`purchases` aggregates (`null` on synthetic future points)
and the `estimated` projection value (`null` on historical points other
than the join point). -/
structure FinPoint where
  date : Int
  sales : Option ℚ
  purchases : Option ℚ
  estimated : Option ℚ
  deriving Repr, DecidableEq

/-- Embeds `dataMap.set(date, current)` where
`current = dataMap.get(date) || {sales: 0, purchases: 0}` incremented by
`(sal, pur)`: an insertion-ordered association list mirroring the JS
`Map` (update in place, append new keys at the end). -/
def mapUpsert (date : Int) (sal pur : ℚ) :
    List (Int × ℚ × ℚ) → List (Int × ℚ × ℚ)
  | [] => [(date, sal, pur)]
  | e :: rest =>
      if e.1 = date then (e.1, e.2.1 + sal, e.2.2 + pur) :: rest
      else e :: mapUpsert date sal pur rest

/-- The aggregation loop of `generateChartData`: for each invoice add its
`totalAmount` into the `sales` (SALE) or `purchases` (PURCHASE) slot of
its date bucket.  The source first sorts the invoices by date; since the
per-bucket additions commute and the bucket list is re-sorted by date
right after (`sortFin`), that pre-sort only permutes the intermediate
insertion order and is omitted here. -/
def dataMap (invoices : List Invoice) : List (Int × ℚ × ℚ) :=
  invoices.foldl
    (fun m inv =>
      match inv.type with
      | .SALE => mapUpsert inv.date inv.totalAmount 0 m
      | .PURCHASE => mapUpsert inv.date 0 inv.totalAmount m)
    []

/-- Embeds `Array.from(dataMap.entries()).map(([date, d]) => ({date, sales, purchases, estimated: null}))`. -/
def toFinPoints (l : List (Int × ℚ × ℚ)) : List FinPoint :=
  l.map (fun e => { date := e.1, sales := some e.2.1, purchases := some e.2.2,
                    estimated := none })

/-- The grouped, date-sorted historical series before windowing. -/
def finSorted (invoices : List Invoice) : List FinPoint :=
  sortByDate FinPoint.date (toFinPoints (dataMap invoices))

/-- The window filter:
`chartData.filter(d => new Date(d.date) >= cutoffDate)` with
`cutoffDate = today - rangeDays` (a `setDate` shift that keeps the
current time of day), i.e. keep `d` iff
`d.date * msPerDay ≥ now - rangeDays * msPerDay`. -/
def finFiltered (invoices : List Invoice) (now : Int) (timeRange : TimeRange) :
    List FinPoint :=
  (finSorted invoices).filter
    (fun d => now - rangeDays timeRange * msPerDay ≤ d.date * msPerDay)

/-- Embeds `chartData.slice(-5)`: the last `n` elements of a list. -/
def lastN (n : Nat) (l : List α) : List α := l.drop (l.length - n)

/-- Embeds `const avgSales = lastPoints.reduce((sum, p) => sum + p.sales, 0) / lastPoints.length`
with `lastPoints = chartData.slice(-5)` (historical points always carry a
real `sales` number; `getD 0` is only a total-function default). -/
def avgSales (chartData : List FinPoint) : ℚ :=
  let lastPoints := lastN 5 chartData
  (lastPoints.foldl (fun sum p => sum + p.sales.getD 0) 0) / (lastPoints.length : ℚ)

/-- Embeds `lastRealData.estimated = lastRealData.sales`: duplicate the real
value of the last historical point into its `estimated` field. -/
def setLastEstimated : List FinPoint → List FinPoint
  | [] => []
  | [x] => [{ x with estimated := x.sales }]
  | x :: y :: ys => x :: setLastEstimated (y :: ys)

/-- The projection loop `for (let i = 1; i <= 5; i++)`: the `i`-th future
point lives on day `lastDate + i` and carries
`estimated = Math.round(avgSales * (1 + (Math.random() * 0.2 - 0.1)))`
with `sales`/`purchases` null. -/
def finFuture (rnd : ℕ → ℚ) (avg : ℚ) (lastDate : Int) : List FinPoint :=
  (List.range 5).map
    (fun i =>
      { date := lastDate + (i + 1 : ℕ),
        sales := none, purchases := none,
        estimated := some ((jsRound (avg * (1 + (rnd i * (2 / 10) - 1 / 10))) : Int) : ℚ) })

/-- Embeds `generateChartData` in `Dashboard.tsx`: group, sort, window-filter,
then — only when `chartData.length > 2` — mark the join point and append
five synthetic future points built from the average of the last five
historical `sales` values. -/
def generateChartData (invoices : List Invoice) (now : Int)
    (timeRange : TimeRange) (rnd : ℕ → ℚ) : List FinPoint :=
  let chartData := finFiltered invoices now timeRange
  if 2 < chartData.length then
    let avg := avgSales chartData
    let lastDate := ((chartData.getLast?).map FinPoint.date).getD 0
    setLastEstimated chartData ++ finFuture rnd avg lastDate
  else chartData

end Dashboard

namespace ProductAnalytics

/-! ## Per-product chart pipeline (`generateChartData` in `ProductAnalytics.tsx`) -/

/-- One element of the per-product `data` array: `real` is the day's sold
quantity (`null` on future points), `estimated` the projection (`null` on
historical points other than the join point). -/
structure ProdPoint where
  date : Int
  real : Option Int
  estimated : Option Int
  deriving Repr, DecidableEq

/-- Embeds `invoices.filter(inv => inv.items.some(item => item.productId === selectedProductId))`. -/
def productInvoices (selectedProductId : String) (invoices : List Invoice) :
    List Invoice :=
  invoices.filter (fun inv => inv.items.any (fun item => item.productId = selectedProductId))

/-- Embeds `rawMap.set(inv.date, (rawMap.get(inv.date) || 0) + qty)` on the JS
`Map`, as an insertion-ordered association list. -/
def rawMapUpsert (date : Int) (qty : Int) : List (Int × Int) → List (Int × Int)
  | [] => [(date, qty)]
  | e :: rest =>
      if e.1 = date then (e.1, e.2 + qty) :: rest
      else e :: rawMapUpsert date qty rest

/-- The aggregation loop: for each SALE invoice referencing the product,
add `inv.items.find(i => i.productId === selectedProductId)?.quantity || 0`
into the invoice's date bucket. -/
def rawMap (selectedProductId : String) (invoices : List Invoice) :
    List (Int × Int) :=
  (productInvoices selectedProductId invoices).foldl
    (fun m inv =>
      match inv.type with
      | .SALE =>
          rawMapUpsert inv.date
            (((inv.items.find? (fun i => i.productId = selectedProductId)).map
                InvoiceItem.quantity).getD 0) m
      | .PURCHASE => m)
    []

/-- Embeds `Array.from(rawMap.entries()).map(([date, qty]) => ({date, real: qty, estimated: null}))`. -/
def toProdPoints (l : List (Int × Int)) : List ProdPoint :=
  l.map (fun e => { date := e.1, real := some e.2, estimated := none })

/-- The grouped, date-sorted per-product series before windowing. -/
def prodSorted (selectedProductId : String) (invoices : List Invoice) :
    List ProdPoint :=
  sortByDate ProdPoint.date (toProdPoints (rawMap selectedProductId invoices))

/-- Embeds `data.filter(d => new Date(d.date) >= cutoffDate)`, same cutoff as the
financial pipeline. -/
def prodFiltered (selectedProductId : String) (invoices : List Invoice)
    (now : Int) (timeRange : TimeRange) : List ProdPoint :=
  (prodSorted selectedProductId invoices).filter
    (fun d => now - rangeDays timeRange * msPerDay ≤ d.date * msPerDay)

/-- Embeds `const avgSales = data.reduce((acc, curr) => acc + curr.real, 0) / data.length`. -/
def prodAvg (data : List ProdPoint) : ℚ :=
  ((data.foldl (fun acc curr => acc + curr.real.getD 0) 0 : Int) : ℚ) / (data.length : ℚ)

/-- Embeds `lastItem.estimated = lastItem.real`. -/
def setLastEstimatedP : List ProdPoint → List ProdPoint
  | [] => []
  | [x] => [{ x with estimated := x.real }]
  | x :: y :: ys => x :: setLastEstimatedP (y :: ys)

/-- The forecast loop `for (let i = 1; i <= 4; i++)`: day `lastDate + i`,
`estimated = Math.max(0, Math.round(avgSales + (Math.random() * 2 - 1)))`,
`real = null`. -/
def prodFuture (rnd : ℕ → ℚ) (avg : ℚ) (lastDate : Int) : List ProdPoint :=
  (List.range 4).map
    (fun i =>
      { date := lastDate + (i + 1 : ℕ),
        real := none,
        estimated := some (max 0 (jsRound (avg + (rnd i * 2 - 1)))) })

/-- Embeds `generateChartData` in `ProductAnalytics.tsx`: group the SALE
quantities of the selected product by date, sort, window-filter, then —
only when `data.length > 1` — mark the join point and append four
synthetic future points built from the average over all filtered points. -/
def generateChartData (selectedProductId : String) (invoices : List Invoice)
    (now : Int) (timeRange : TimeRange) (rnd : ℕ → ℚ) : List ProdPoint :=
  let data := prodFiltered selectedProductId invoices now timeRange
  if 1 < data.length then
    let avg := prodAvg data
    let lastDate := ((data.getLast?).map ProdPoint.date).getD 0
    setLastEstimatedP data ++ prodFuture rnd avg lastDate
  else data

end ProductAnalytics

/-! ## Seed catalog (`constants.ts`) and reachable ledger states

`MOCK_INVOICES` is a randomly generated demo fixture (the spec explicitly
marks it as non-contractual), so the seed state carries an arbitrary
initial history while the catalog is the concrete `INITIAL_PRODUCTS`
array.  Dates are calendar day numbers (e.g. `2023-10-20` is day 19650). -/

/-- First entry of `INITIAL_PRODUCTS`. -/
def lecheEntera : Product :=
  { id := "1", name := "Leche Entera 1L", category := "Lácteos",
    currentStock := 12, minStock := 20, price := 1200, cost := 800,
    lastRestocked := 19650 }

/-- Embeds `INITIAL_PRODUCTS` from `constants.ts`. -/
def INITIAL_PRODUCTS : List Product :=
  [ lecheEntera,
    { id := "2", name := "Pan de Molde Blanco", category := "Panadería",
      currentStock := 5, minStock := 15, price := 2500, cost := 1800,
      lastRestocked := 19652 },
    { id := "3", name := "Bebida Cola 3L", category := "Bebidas",
      currentStock := 45, minStock := 30, price := 3200, cost := 2100,
      lastRestocked := 19645 },
    { id := "4", name := "Arroz Grado 2", category := "Despensa",
      currentStock := 8, minStock := 25, price := 1100, cost := 750,
      lastRestocked := 19640 },
    { id := "5", name := "Yogurt Batido Fresa", category := "Lácteos",
      currentStock := 30, minStock := 20, price := 450, cost := 280,
      lastRestocked := 19654 },
    { id := "6", name := "Aceite Maravilla 1L", category := "Despensa",
      currentStock := 3, minStock := 10, price := 2800, cost := 1900,
      lastRestocked := 19630 },
    { id := "7", name := "Cerveza Lager 6pack", category := "Alcohol",
      currentStock := 22, minStock := 15, price := 5990, cost := 3500,
      lastRestocked := 19648 },
    { id := "8", name := "Papas Fritas 250g", category := "Snacks",
      currentStock := 14, minStock := 20, price := 2100, cost := 1200,
      lastRestocked := 19651 } ]

/-- The data-model input contract of a committed transaction
(spec §3: `quantity` is an integer `> 0`; the billing form's quantity
input carries `min="1"`). -/
def ValidInvoice (inv : Invoice) : Prop :=
  ∀ it ∈ inv.items, 0 < it.quantity

/-- One public ledger operation.  Catalog edits carry the inventory
form's `min="0"` constraint on the stock field; transaction recording
carries the data-model constraint `quantity > 0`. -/
inductive Step : AppState → AppState → Prop where
  | record (inv : Invoice) (s : AppState) (h : ValidInvoice inv) :
      Step s (handleAddInvoice inv s)
  | add (p : Product) (s : AppState) (h : 0 ≤ p.currentStock) :
      Step s (handleAddProduct p s)
  | update (p : Product) (s : AppState) (h : 0 ≤ p.currentStock) :
      Step s (handleUpdateProduct p s)
  | delete (id : String) (s : AppState) :
      Step s (handleDeleteProduct id s)

/-- States reachable from the seed catalog (with any demo history) by
any sequence of public operations. -/
inductive Reachable : AppState → Prop where
  | seed (invoices : List Invoice) :
      Reachable { products := INITIAL_PRODUCTS, invoices := invoices }
  | step {s s' : AppState} : Reachable s → Step s s' → Reachable s'

/-! ## Concrete fixtures used by counterexamples and witnesses -/

/-- A deterministic stand-in for the `Math.random()` oracle. -/
def rnd0 : ℕ → ℚ := fun _ => 0

/-- A small demo product. -/
def demoProd : Product :=
  { id := "1", name := "Leche", category := "L", currentStock := 12,
    minStock := 20, price := 1200, cost := 800, lastRestocked := 0 }

/-- A one-product demo catalog with empty history. -/
def demoState : AppState := { products := [demoProd], invoices := [] }

/-- A line item whose `productId` resolves to no product of `demoState`. -/
def ghostItem : InvoiceItem :=
  { productId := "404", productName := "Ghost", quantity := 1,
    unitPrice := 5, total := 5 }

/-- A line item referencing product `"1"` of `demoState`. -/
def demoItem : InvoiceItem :=
  { productId := "1", productName := "Leche", quantity := 5,
    unitPrice := 1200, total := 6000 }

/-- A SALE invoice of five units of product `"1"`. -/
def demoSale : Invoice :=
  { id := "s1", type := .SALE, date := 100, items := [demoItem],
    totalAmount := 6000 }

/-- A second line item referencing the same product `"1"`. -/
def dupItem : InvoiceItem :=
  { productId := "1", productName := "Leche", quantity := 99,
    unitPrice := 1200, total := 118800 }

/-- The now instant for the chart fixtures: midnight of day 100. -/
def demoNow : Int := 100 * msPerDay

/-- Two SALE invoices on distinct recent days: the financial pipeline's
filtered series has exactly two points. -/
def demoInvsFin2 : List Invoice :=
  [ { id := "a", type := .SALE, date := 98, items := [], totalAmount := 10 },
    { id := "b", type := .SALE, date := 99, items := [], totalAmount := 20 } ]

/-- Three SALE invoices on distinct recent days, each selling product
`"p"`: three filtered points in both pipelines. -/
def demoInvsFin3 : List Invoice :=
  [ { id := "a", type := .SALE, date := 97,
      items := [{ productId := "p", productName := "P", quantity := 2,
                  unitPrice := 5, total := 10 }], totalAmount := 10 },
    { id := "b", type := .SALE, date := 98,
      items := [{ productId := "p", productName := "P", quantity := 4,
                  unitPrice := 5, total := 20 }], totalAmount := 20 },
    { id := "c", type := .SALE, date := 99,
      items := [{ productId := "p", productName := "P", quantity := 6,
                  unitPrice := 5, total := 30 }], totalAmount := 30 } ]

/-- One SALE invoice selling product `"p"`: the per-product pipeline's
filtered series has exactly one point. -/
def demoInvsProd1 : List Invoice :=
  [ { id := "c", type := .SALE, date := 99,
      items := [{ productId := "p", productName := "P", quantity := 3,
                  unitPrice := 5, total := 15 }], totalAmount := 15 } ]

/-- One SALE invoice dated exactly `windowDays` before day 7. -/
def boundaryInvs : List Invoice :=
  [ { id := "a", type := .SALE, date := 0, items := [], totalAmount := 100 } ]

/-- The single grouped point produced by `boundaryInvs`. -/
def boundaryPoint : Dashboard.FinPoint :=
  { date := 0, sales := some 100, purchases := some 0, estimated := none }

/-! ## Shape of a produced projection (used to state C5) -/

/-- The projection contract of the financial series: the output is the
filtered history whose last (join) point duplicates its real `sales`
value into `estimated`, followed by exactly five synthetic points, one
per subsequent calendar day, each with null real fields and a
non-negative integral (rounded) `estimated` value; all historical points
before the join point keep a null `estimated`. -/
def FinProjection (cd out : List Dashboard.FinPoint) : Prop :=
  ∃ (jp : Dashboard.FinPoint) (future : List Dashboard.FinPoint),
    out = cd.dropLast ++ jp :: future ∧
    cd.getLast? = some { jp with estimated := none } ∧
    (∃ sv : ℚ, jp.sales = some sv ∧ jp.estimated = some sv) ∧
    future.length = 5 ∧
    (∀ (i : ℕ) (h : i < future.length),
       (future.get ⟨i, h⟩).date = jp.date + (i + 1) ∧
       (future.get ⟨i, h⟩).sales = none ∧
       (future.get ⟨i, h⟩).purchases = none ∧
       ∃ n : Int, 0 ≤ n ∧ (future.get ⟨i, h⟩).estimated = some (n : ℚ)) ∧
    (∀ pt ∈ cd.dropLast, pt.estimated = none)

/-- The projection contract of the per-product series: same shape with
four synthetic points and the `real` field as the real value. -/
def ProdProjection (cd out : List ProductAnalytics.ProdPoint) : Prop :=
  ∃ (jp : ProductAnalytics.ProdPoint) (future : List ProductAnalytics.ProdPoint),
    out = cd.dropLast ++ jp :: future ∧
    cd.getLast? = some { jp with estimated := none } ∧
    (∃ sv : Int, jp.real = some sv ∧ jp.estimated = some sv) ∧
    future.length = 4 ∧
    (∀ (i : ℕ) (h : i < future.length),
       (future.get ⟨i, h⟩).date = jp.date + (i + 1) ∧
       (future.get ⟨i, h⟩).real = none ∧
       ∃ n : Int, 0 ≤ n ∧ (future.get ⟨i, h⟩).estimated = some n) ∧
    (∀ pt ∈ cd.dropLast, pt.estimated = none)

/-! # Helper lemmas -/

/-- A `reduce((acc, x) => acc + f(x), c)` fold is `c` plus the sum of the
mapped list. -/
theorem foldl_add_eq {α M : Type*} [AddCommMonoid M] (f : α → M) :
    ∀ (l : List α) (c : M), l.foldl (fun acc x => acc + f x) c = c + (l.map f).sum
  | [], c => by simp
  | x :: xs, c => by
      simp only [List.foldl_cons, List.map_cons, List.sum_cons]
      rw [foldl_add_eq f xs (c + f x), add_assoc]

/-- The JS find method returns the head of the first matching
suffix. -/
theorem find?_append_first {α : Type*} {p : α → Bool} (it : α) (hit : p it = true) :
    ∀ (pre post : List α), (∀ j ∈ pre, p j = false) →
      (pre ++ it :: post).find? p = some it
  | [], post, _ => by simp [List.find?_cons, hit]
  | x :: xs, post, hpre => by
      have hx := hpre x (List.mem_cons_self x xs)
      simp only [List.cons_append, List.find?_cons, hx, cond_false]
      exact find?_append_first it hit xs post
        (fun j hj => hpre j (List.mem_cons_of_mem x hj))

/-- When the line items carry pairwise distinct `productId`s,
`items.find(i => i.productId === pid)` returns the unique item with that
id. -/
theorem find?_of_nodup_keys {pid : String} :
    ∀ {items : List InvoiceItem},
      (items.map (fun i => i.productId)).Nodup →
      ∀ {it : InvoiceItem}, it ∈ items → it.productId = pid →
        items.find? (fun i => i.productId = pid) = some it
  | [], _, it, hmem, _ => absurd hmem (List.not_mem_nil it)
  | x :: xs, hnd, it, hmem, hid => by
      rcases List.mem_cons.mp hmem with rfl | htail
      · simp [List.find?_cons, hid]
      · have hx : ¬ x.productId = pid := by
          intro hxp
          have : it.productId ∈ xs.map (fun i => i.productId) :=
            List.mem_map.mpr ⟨it, htail, rfl⟩
          rw [hid, ← hxp] at this
          exact (List.nodup_cons.mp (by simpa using hnd)).1 this
        simp only [List.find?_cons, decide_eq_false hx, cond_false]
        exact find?_of_nodup_keys (List.nodup_cons.mp (by simpa using hnd)).2 htail hid

/-- A product referenced by no line item of the invoice is not touched
by the stock-update map. -/
theorem applyInvoiceToProduct_not_referenced (inv : Invoice) (p : Product)
    (h : ∀ it ∈ inv.items, it.productId ≠ p.id) :
    applyInvoiceToProduct inv p = p := by
  have hfind : inv.items.find? (fun i => i.productId = p.id) = none := by
    rw [List.find?_eq_none]
    intro it hit
    simp [h it hit]
  simp [applyInvoiceToProduct, hfind]

/-! # Claim theorems -/

/-- C1: for a recorded transaction in which each product is referenced by
at most one line item (pairwise distinct `productId`s), the stock map of
`handleAddInvoice` gives every referenced product, on a SALE, a new
`currentStock` of `max 0 (before - quantity)` (a silent clamp), and on a
PURCHASE a new `currentStock` of `before + quantity` together with
`lastRestocked` set to the transaction date. -/
theorem spec_C1 (s : AppState) (inv : Invoice) (p : Product) (it : InvoiceItem)
    (hnd : (inv.items.map (fun i => i.productId)).Nodup)
    (hmem : it ∈ inv.items) (hid : it.productId = p.id) :
    (handleAddInvoice inv s).products = s.products.map (applyInvoiceToProduct inv) ∧
    (inv.type = InvoiceType.SALE →
      (applyInvoiceToProduct inv p).currentStock
        = max 0 (p.currentStock - it.quantity)) ∧
    (inv.type = InvoiceType.PURCHASE →
      (applyInvoiceToProduct inv p).currentStock = p.currentStock + it.quantity ∧
      (applyInvoiceToProduct inv p).lastRestocked = inv.date) := by
  have hfind := find?_of_nodup_keys hnd hmem hid
  refine ⟨rfl, ?_, ?_⟩ <;> intro hty <;> simp [applyInvoiceToProduct, hfind, hty]

/-- C1 witness: a concrete SALE of 5 units against a stock of 12. -/
theorem spec_C1_witness :
    (handleAddInvoice demoSale demoState).products
      = demoState.products.map (applyInvoiceToProduct demoSale) ∧
    (demoSale.type = InvoiceType.SALE →
      (applyInvoiceToProduct demoSale demoProd).currentStock
        = max 0 (demoProd.currentStock - demoItem.quantity)) ∧
    (demoSale.type = InvoiceType.PURCHASE →
      (applyInvoiceToProduct demoSale demoProd).currentStock
        = demoProd.currentStock + demoItem.quantity ∧
      (applyInvoiceToProduct demoSale demoProd).lastRestocked = demoSale.date) :=
  spec_C1 demoState demoSale demoProd demoItem (by decide) (by decide) (by decide)

/-- C9: when an invoice contains several line items with the same
`productId`, only the first such item's quantity is applied to that
product's stock — the conclusion names only the first matching item `it`
and is independent of the tail `post`, which may hold any number of
duplicate items. -/
theorem spec_C9 (s : AppState) (pre post : List InvoiceItem) (it : InvoiceItem)
    (p : Product) (uid : String) (ty : InvoiceType) (d : Int) (amt : ℚ)
    (hpre : ∀ j ∈ pre, j.productId ≠ p.id) (hid : it.productId = p.id) :
    (handleAddInvoice ⟨uid, ty, d, pre ++ it :: post, amt⟩ s).products
      = s.products.map (applyInvoiceToProduct ⟨uid, ty, d, pre ++ it :: post, amt⟩) ∧
    (applyInvoiceToProduct ⟨uid, ty, d, pre ++ it :: post, amt⟩ p).currentStock
      = (match ty with
         | InvoiceType.SALE => max 0 (p.currentStock - it.quantity)
         | InvoiceType.PURCHASE => p.currentStock + it.quantity) := by
  have hfind : (pre ++ it :: post).find? (fun i => i.productId = p.id) = some it :=
    find?_append_first it (by simp [hid]) pre post
      (fun j hj => by simp [hpre j hj])
  exact ⟨rfl, by cases ty <;> simp [applyInvoiceToProduct, hfind]⟩

/-- C9 witness: a SALE invoice listing product `"1"` twice (5 units, then
99 units) decrements the stock by the first quantity only. -/
theorem spec_C9_witness :
    (handleAddInvoice ⟨"d1", InvoiceType.SALE, 100, [] ++ demoItem :: [dupItem], 124800⟩
        demoState).products
      = demoState.products.map
          (applyInvoiceToProduct ⟨"d1", InvoiceType.SALE, 100, [] ++ demoItem :: [dupItem], 124800⟩) ∧
    (applyInvoiceToProduct ⟨"d1", InvoiceType.SALE, 100, [] ++ demoItem :: [dupItem], 124800⟩
        demoProd).currentStock
      = (match InvoiceType.SALE with
         | InvoiceType.SALE => max 0 (demoProd.currentStock - demoItem.quantity)
         | InvoiceType.PURCHASE => demoProd.currentStock + demoItem.quantity) :=
  spec_C9 demoState [] [dupItem] demoItem demoProd "d1" InvoiceType.SALE 100 124800
    (by decide) (by decide)

/-- C10: an invoice recorded via `handleAddInvoice` leaves every product
it does not reference entirely unchanged (all fields), and its only
effect on the history is appending the new invoice. -/
theorem spec_C10 (s : AppState) (inv : Invoice) (p : Product)
    (h : ∀ it ∈ inv.items, it.productId ≠ p.id) :
    applyInvoiceToProduct inv p = p ∧
    (handleAddInvoice inv s).products = s.products.map (applyInvoiceToProduct inv) ∧
    (p ∈ s.products → p ∈ (handleAddInvoice inv s).products) ∧
    (handleAddInvoice inv s).invoices = s.invoices ++ [inv] := by
  have happ := applyInvoiceToProduct_not_referenced inv p h
  exact ⟨happ, rfl, fun hp => List.mem_map.mpr ⟨p, hp, happ⟩, rfl⟩

/-- C10 witness: recording an invoice that references only the
unresolvable id `"404"` leaves the demo product untouched. -/
theorem spec_C10_witness :
    applyInvoiceToProduct ⟨"g1", InvoiceType.SALE, 100, [ghostItem], 5⟩ demoProd = demoProd ∧
    (handleAddInvoice ⟨"g1", InvoiceType.SALE, 100, [ghostItem], 5⟩ demoState).products
      = demoState.products.map (applyInvoiceToProduct ⟨"g1", InvoiceType.SALE, 100, [ghostItem], 5⟩) ∧
    (demoProd ∈ demoState.products →
      demoProd ∈ (handleAddInvoice ⟨"g1", InvoiceType.SALE, 100, [ghostItem], 5⟩ demoState).products) ∧
    (handleAddInvoice ⟨"g1", InvoiceType.SALE, 100, [ghostItem], 5⟩ demoState).invoices
      = demoState.invoices ++ [⟨"g1", InvoiceType.SALE, 100, [ghostItem], 5⟩] :=
  spec_C10 demoState ⟨"g1", InvoiceType.SALE, 100, [ghostItem], 5⟩ demoProd (by decide)

/-- C2 counterexample: the claim asserts that a transaction whose
`productId` does not resolve in the catalog is rejected with no invoice
appended; in the code `handleSaveInvoice` performs no such validation —
committing a non-empty invoice whose only item references the
unresolvable id `"404"` appends it to the history. -/
theorem spec_C2_counterexample :
    ([ghostItem] ≠ ([] : List InvoiceItem)) ∧
    (demoState.products.all (fun p => p.id ≠ ghostItem.productId) = true) ∧
    (handleSaveInvoice "i1" InvoiceType.SALE 20000 [ghostItem] demoState).invoices
      ≠ demoState.invoices := by decide

/-- C2 (amended): `handleSaveInvoice` silently ignores a save with an
empty item list (a plain early return, not a raised error), leaving the
whole state — history and stock — unchanged; an unresolvable `productId`
is not validated: a non-empty invoice is always appended to the history
(with `totalAmount` the sum of the line totals), and any product
referenced by none of its items keeps all its fields. -/
theorem spec_C2_amended (uid : String) (ty : InvoiceType) (d : Int)
    (items : List InvoiceItem) (s : AppState) :
    (items = [] → handleSaveInvoice uid ty d items s = s) ∧
    (items ≠ [] →
      (handleSaveInvoice uid ty d items s).invoices
        = s.invoices ++
            [{ id := uid, type := ty, date := d, items := items,
               totalAmount := items.foldl (fun sum item => sum + item.total) 0 }] ∧
      ∀ p ∈ s.products, (∀ it ∈ items, it.productId ≠ p.id) →
        p ∈ (handleSaveInvoice uid ty d items s).products) := by
  constructor
  · rintro rfl
    simp [handleSaveInvoice]
  · intro hne
    have hempty : items.isEmpty = false := by
      cases items with
      | nil => exact absurd rfl hne
      | cons a l => rfl
    refine ⟨by simp [handleSaveInvoice, hempty, handleAddInvoice], ?_⟩
    intro p hp hid
    simp only [handleSaveInvoice, hempty, Bool.false_eq_true, if_false]
    exact List.mem_map.mpr ⟨p, hp, applyInvoiceToProduct_not_referenced _ p hid⟩

/-- C2 amended witness: the empty save is a no-op on the demo state. -/
theorem spec_C2_amended_witness :
    handleSaveInvoice "i1" InvoiceType.SALE 0 [] demoState = demoState :=
  (spec_C2_amended "i1" InvoiceType.SALE 0 [] demoState).1 rfl

/-- C3: for every transaction history, `netProfit` equals `totalSales`
minus `totalPurchases`, where the two totals are the sums of
`totalAmount` over the SALE (resp. PURCHASE) transactions. -/
theorem spec_C3 (invoices : List Invoice) :
    Dashboard.netProfit invoices
      = ((invoices.filter (fun i => i.type = InvoiceType.SALE)).map
           Invoice.totalAmount).sum
        - ((invoices.filter (fun i => i.type = InvoiceType.PURCHASE)).map
             Invoice.totalAmount).sum := by
  simp only [Dashboard.netProfit, Dashboard.totalSales, Dashboard.totalPurchases,
    foldl_add_eq Invoice.totalAmount, zero_add]

/-- C8: deleting a product touches only the catalog — every committed
transaction (in particular one referencing the deleted product, with its
`productName`/`unitPrice` snapshots) is left in the history exactly as it
was. -/
theorem spec_C8 (s : AppState) (pid : String) (tx : Invoice)
    (hmem : tx ∈ s.invoices) (_href : ∃ it ∈ tx.items, it.productId = pid) :
    (handleDeleteProduct pid s).invoices = s.invoices ∧
    tx ∈ (handleDeleteProduct pid s).invoices :=
  ⟨rfl, hmem⟩

/-- C8 witness: deleting product `"1"` after a SALE referencing it keeps
that invoice in the history unchanged. -/
theorem spec_C8_witness :
    (handleDeleteProduct "1" { products := [demoProd], invoices := [demoSale] }).invoices
      = [demoSale] ∧
    demoSale ∈ (handleDeleteProduct "1"
        { products := [demoProd], invoices := [demoSale] }).invoices :=
  spec_C8 { products := [demoProd], invoices := [demoSale] } "1" demoSale
    (by decide) ⟨demoItem, by decide, by decide⟩

/-- C7: in every state reachable from the seed catalog by any sequence of
the public operations (recording a transaction, adding, updating or
deleting a product), every product's `currentStock` is non-negative. -/
theorem spec_C7 (s : AppState) (h : Reachable s) :
    ∀ p ∈ s.products, 0 ≤ p.currentStock := by
  induction h with
  | seed invoices =>
      have hseed : ∀ p ∈ INITIAL_PRODUCTS, 0 ≤ p.currentStock := by decide
      exact hseed
  | step _ hstep ih =>
      cases hstep with
      | record inv s hv =>
          intro q hq
          obtain ⟨p, hp, rfl⟩ := List.mem_map.mp hq
          have hp0 := ih p hp
          cases hfind : inv.items.find? (fun i => i.productId = p.id) with
          | none => simpa [applyInvoiceToProduct, hfind] using hp0
          | some it =>
              have hqty := hv it (List.mem_of_find?_eq_some hfind)
              cases hty : inv.type with
              | SALE =>
                  simp [applyInvoiceToProduct, hfind, hty]
              | PURCHASE =>
                  simp only [applyInvoiceToProduct, hfind, hty]
                  exact add_nonneg hp0 hqty.le
      | add p s hps =>
          intro q hq
          rcases List.mem_append.mp hq with hold | hnew
          · exact ih q hold
          · rw [List.mem_singleton.mp hnew]
            exact hps
      | update p s hps =>
          intro q hq
          obtain ⟨r, hr, hrq⟩ := List.mem_map.mp hq
          by_cases hrid : r.id = p.id
          · rw [← hrq, if_pos hrid]
            exact hps
          · rw [← hrq, if_neg hrid]
            exact ih r hr
      | delete id s =>
          intro q hq
          exact ih q (List.mem_of_mem_filter hq)

/-- C7 witness: the invariant instantiated at the seed state for its
first product. -/
theorem spec_C7_witness : 0 ≤ lecheEntera.currentStock :=
  spec_C7 { products := INITIAL_PRODUCTS, invoices := [] } (Reachable.seed [])
    lecheEntera (by decide)

/-- The day-level reading of the millisecond cutoff comparison: with
"now" written as `D * msPerDay + t` (`0 ≤ t < msPerDay`), an entry at
calendar day `d` passes the filter iff `D - W ≤ d` when `t = 0` and
iff `D - W < d` otherwise. -/
theorem cutoff_mem_iff (W d D t : Int) (ht0 : 0 ≤ t) (ht1 : t < msPerDay) :
    (D * msPerDay + t - W * msPerDay ≤ d * msPerDay) ↔
      (if t = 0 then D - W ≤ d else D - W < d) := by
  rw [msPerDay] at *
  by_cases h : t = 0
  · rw [if_pos h]
    omega
  · rw [if_neg h]
    omega

/-- C6 counterexample: the claim asserts the boundary date (exactly
`windowDays` before today) is kept by the window filter; with "now" one
millisecond after midnight of day 7 the single grouped entry sits exactly
on the WEEK boundary (day `now/msPerDay - 7 = 0`) yet the filtered
series is empty, because the cutoff `new Date()` minus 7 days keeps the
current time of day while the entry's parsed date is midnight. -/
theorem spec_C6_counterexample :
    Dashboard.finSorted boundaryInvs = [boundaryPoint] ∧
    (7 * msPerDay + 1) / msPerDay - rangeDays TimeRange.WEEK = boundaryPoint.date ∧
    Dashboard.finFiltered boundaryInvs (7 * msPerDay + 1) TimeRange.WEEK = [] := by
  decide

/-- C6 (amended): the window filter keeps exactly the grouped entries
whose parsed date (midnight of day `d`) is at or after `now` minus
`windowDays` days, where the cutoff keeps the current time of day;
`windowDays` is 7/30/365 for WEEK/MONTH/YEAR.  At day granularity this
means: when now is exactly midnight the boundary date `D - windowDays`
is included, otherwise the earliest included date is
`D - windowDays + 1` — the boundary date is excluded. -/
theorem spec_C6_amended (invoices : List Invoice) (pid : String) (tr : TimeRange)
    (D t : Int) (ht0 : 0 ≤ t) (ht1 : t < msPerDay) :
    (rangeDays TimeRange.WEEK = 7 ∧ rangeDays TimeRange.MONTH = 30 ∧
      rangeDays TimeRange.YEAR = 365) ∧
    (∀ pt, pt ∈ Dashboard.finFiltered invoices (D * msPerDay + t) tr ↔
      (pt ∈ Dashboard.finSorted invoices ∧
        if t = 0 then D - rangeDays tr ≤ pt.date else D - rangeDays tr < pt.date)) ∧
    (∀ pt, pt ∈ ProductAnalytics.prodFiltered pid invoices (D * msPerDay + t) tr ↔
      (pt ∈ ProductAnalytics.prodSorted pid invoices ∧
        if t = 0 then D - rangeDays tr ≤ pt.date else D - rangeDays tr < pt.date)) := by
  refine ⟨⟨rfl, rfl, rfl⟩, ?_, ?_⟩
  · intro pt
    rw [Dashboard.finFiltered, List.mem_filter, decide_eq_true_eq,
      cutoff_mem_iff (rangeDays tr) pt.date D t ht0 ht1]
  · intro pt
    rw [ProductAnalytics.prodFiltered, List.mem_filter, decide_eq_true_eq,
      cutoff_mem_iff (rangeDays tr) pt.date D t ht0 ht1]

/-- C6 amended witness: at exactly midnight of day 7 the boundary entry
(day 0) is kept by the WEEK filter. -/
theorem spec_C6_amended_witness :
    boundaryPoint ∈ Dashboard.finFiltered boundaryInvs (7 * msPerDay + 0) TimeRange.WEEK :=
  ((spec_C6_amended boundaryInvs "p" TimeRange.WEEK 7 0 (by norm_num)
      (by norm_num [msPerDay])).2.1 boundaryPoint).mpr ⟨by decide, by decide⟩

/-- C4 counterexample: the claim asserts a projection is produced exactly
when the filtered series has more than one point (financial series) and
more than zero points (per-product series); in the code the thresholds
are `length > 2` and `length > 1` — a financial series with exactly two
filtered points and a per-product series with exactly one filtered point
are both returned unchanged, with no projection appended. -/
theorem spec_C4_counterexample :
    (1 < (Dashboard.finFiltered demoInvsFin2 demoNow TimeRange.WEEK).length ∧
      Dashboard.generateChartData demoInvsFin2 demoNow TimeRange.WEEK rnd0
        = Dashboard.finFiltered demoInvsFin2 demoNow TimeRange.WEEK) ∧
    (0 < (ProductAnalytics.prodFiltered "p" demoInvsProd1 demoNow TimeRange.WEEK).length ∧
      ProductAnalytics.generateChartData "p" demoInvsProd1 demoNow TimeRange.WEEK rnd0
        = ProductAnalytics.prodFiltered "p" demoInvsProd1 demoNow TimeRange.WEEK) := by
  decide

/-- The financial `reduce` over `sales` as a mapped sum. -/
theorem foldl_sales_eq (l : List Dashboard.FinPoint) (c : ℚ) :
    l.foldl (fun sum p => sum + p.sales.getD 0) c
      = c + (l.map (fun p => p.sales.getD 0)).sum :=
  foldl_add_eq (fun p => p.sales.getD 0) l c

/-- The per-product `reduce` over `real` as a mapped sum. -/
theorem foldl_real_eq (l : List ProductAnalytics.ProdPoint) (c : Int) :
    l.foldl (fun acc curr => acc + curr.real.getD 0) c
      = c + (l.map (fun p => p.real.getD 0)).sum :=
  foldl_add_eq (fun p => p.real.getD 0) l c

/-- C4 (amended): a projection is produced exactly when the
window-filtered series has more than two points (financial series) and
more than one point (per-product series); when produced, the average fed
to the synthetic points is the mean over only the last 5 filtered points
— or all points if fewer than 5 — for the financial series, and the mean
over all filtered points for the per-product series.  Below the
threshold the filtered series is returned unchanged. -/
theorem spec_C4_amended (invoices : List Invoice) (pid : String) (now : Int)
    (tr : TimeRange) (rnd : ℕ → ℚ) :
    ((¬ 2 < (Dashboard.finFiltered invoices now tr).length →
        Dashboard.generateChartData invoices now tr rnd
          = Dashboard.finFiltered invoices now tr) ∧
     (2 < (Dashboard.finFiltered invoices now tr).length →
        Dashboard.generateChartData invoices now tr rnd
          = Dashboard.setLastEstimated (Dashboard.finFiltered invoices now tr)
              ++ Dashboard.finFuture rnd
                   (((Dashboard.lastN 5 (Dashboard.finFiltered invoices now tr)).map
                        (fun p => p.sales.getD 0)).sum
                     / ((Dashboard.lastN 5 (Dashboard.finFiltered invoices now tr)).length : ℚ))
                   ((((Dashboard.finFiltered invoices now tr).getLast?).map
                       Dashboard.FinPoint.date).getD 0) ∧
        ((Dashboard.finFiltered invoices now tr).length ≤ 5 →
          Dashboard.lastN 5 (Dashboard.finFiltered invoices now tr)
            = Dashboard.finFiltered invoices now tr))) ∧
    ((¬ 1 < (ProductAnalytics.prodFiltered pid invoices now tr).length →
        ProductAnalytics.generateChartData pid invoices now tr rnd
          = ProductAnalytics.prodFiltered pid invoices now tr) ∧
     (1 < (ProductAnalytics.prodFiltered pid invoices now tr).length →
        ProductAnalytics.generateChartData pid invoices now tr rnd
          = ProductAnalytics.setLastEstimatedP (ProductAnalytics.prodFiltered pid invoices now tr)
              ++ ProductAnalytics.prodFuture rnd
                   (((((ProductAnalytics.prodFiltered pid invoices now tr).map
                         (fun p => p.real.getD 0)).sum : Int) : ℚ)
                     / ((ProductAnalytics.prodFiltered pid invoices now tr).length : ℚ))
                   ((((ProductAnalytics.prodFiltered pid invoices now tr).getLast?).map
                       ProductAnalytics.ProdPoint.date).getD 0))) := by
  have havg : Dashboard.avgSales (Dashboard.finFiltered invoices now tr)
      = ((Dashboard.lastN 5 (Dashboard.finFiltered invoices now tr)).map
            (fun p => p.sales.getD 0)).sum
          / ((Dashboard.lastN 5 (Dashboard.finFiltered invoices now tr)).length : ℚ) := by
    rw [Dashboard.avgSales, foldl_sales_eq, zero_add]
  have havgP : ProductAnalytics.prodAvg (ProductAnalytics.prodFiltered pid invoices now tr)
      = ((((ProductAnalytics.prodFiltered pid invoices now tr).map
             (fun p => p.real.getD 0)).sum : Int) : ℚ)
          / ((ProductAnalytics.prodFiltered pid invoices now tr).length : ℚ) := by
    rw [ProductAnalytics.prodAvg, foldl_real_eq, zero_add]
  refine ⟨⟨?_, ?_⟩, ?_, ?_⟩
  · intro h
    rw [Dashboard.generateChartData, if_neg h]
  · intro h
    refine ⟨?_, ?_⟩
    · rw [Dashboard.generateChartData, if_pos h, havg]
    · intro hle
      rw [Dashboard.lastN, Nat.sub_eq_zero_of_le hle, List.drop_zero]
  · intro h
    rw [ProductAnalytics.generateChartData, if_neg h]
  · intro h
    rw [ProductAnalytics.generateChartData, if_pos h, havgP]

/-- C4 amended witness: three filtered points trigger the financial
projection with the last-5 (here: all three) mean. -/
theorem spec_C4_amended_witness :
    Dashboard.generateChartData demoInvsFin3 demoNow TimeRange.WEEK rnd0
      = Dashboard.setLastEstimated (Dashboard.finFiltered demoInvsFin3 demoNow TimeRange.WEEK)
          ++ Dashboard.finFuture rnd0
               (((Dashboard.lastN 5 (Dashboard.finFiltered demoInvsFin3 demoNow TimeRange.WEEK)).map
                    (fun p => p.sales.getD 0)).sum
                 / ((Dashboard.lastN 5
                      (Dashboard.finFiltered demoInvsFin3 demoNow TimeRange.WEEK)).length : ℚ))
               ((((Dashboard.finFiltered demoInvsFin3 demoNow TimeRange.WEEK).getLast?).map
                   Dashboard.FinPoint.date).getD 0) ∧
    ((Dashboard.finFiltered demoInvsFin3 demoNow TimeRange.WEEK).length ≤ 5 →
      Dashboard.lastN 5 (Dashboard.finFiltered demoInvsFin3 demoNow TimeRange.WEEK)
        = Dashboard.finFiltered demoInvsFin3 demoNow TimeRange.WEEK) :=
  (spec_C4_amended demoInvsFin3 "p" demoNow TimeRange.WEEK rnd0).1.2 (by decide)

/-- Membership through one insertion step of the date sort. -/
theorem mem_insertByDate {α : Type*} (key : α → Int) (y : α) :
    ∀ (l : List α) (x : α), x ∈ insertByDate key y l ↔ x = y ∨ x ∈ l
  | [], x => by simp [insertByDate]
  | z :: zs, x => by
      rw [insertByDate]
      split
      · simp [List.mem_cons]
      · rw [List.mem_cons, mem_insertByDate key y zs x, List.mem_cons]
        tauto

/-- The date sort preserves membership. -/
theorem mem_sortByDate {α : Type*} (key : α → Int) :
    ∀ (l : List α) (x : α), x ∈ sortByDate key l ↔ x ∈ l
  | [], x => by simp [sortByDate]
  | z :: zs, x => by
      rw [sortByDate, List.foldr_cons,
        mem_insertByDate key z (zs.foldr (insertByDate key) []) x,
        show zs.foldr (insertByDate key) [] = sortByDate key zs from rfl,
        mem_sortByDate key zs x, List.mem_cons]

/-- Every bucket of `mapUpsert` keeps non-negative accumulators. -/
theorem mapUpsert_nonneg {d : Int} {sal pur : ℚ} (hs : 0 ≤ sal) (hp : 0 ≤ pur) :
    ∀ (m : List (Int × ℚ × ℚ)), (∀ e ∈ m, 0 ≤ e.2.1 ∧ 0 ≤ e.2.2) →
      ∀ e ∈ Dashboard.mapUpsert d sal pur m, 0 ≤ e.2.1 ∧ 0 ≤ e.2.2
  | [], _, e, he => by
      rw [Dashboard.mapUpsert, List.mem_singleton] at he
      subst he
      exact ⟨hs, hp⟩
  | x :: xs, hm, e, he => by
      rw [Dashboard.mapUpsert] at he
      split at he
      · rcases List.mem_cons.mp he with rfl | htail
        · have hx := hm x (List.mem_cons_self x xs)
          exact ⟨add_nonneg hx.1 hs, add_nonneg hx.2 hp⟩
        · exact hm e (List.mem_cons_of_mem x htail)
      · rcases List.mem_cons.mp he with rfl | htail
        · exact hm e (List.mem_cons_self e xs)
        · exact mapUpsert_nonneg hs hp xs
            (fun e' he' => hm e' (List.mem_cons_of_mem x he')) e htail

/-- The aggregation fold of the financial pipeline keeps all bucket
accumulators non-negative. -/
theorem dataMap_go_nonneg :
    ∀ (invs : List Invoice) (m : List (Int × ℚ × ℚ)),
      (∀ inv ∈ invs, 0 ≤ inv.totalAmount) →
      (∀ e ∈ m, 0 ≤ e.2.1 ∧ 0 ≤ e.2.2) →
      ∀ e ∈ invs.foldl
          (fun m inv =>
            match inv.type with
            | .SALE => Dashboard.mapUpsert inv.date inv.totalAmount 0 m
            | .PURCHASE => Dashboard.mapUpsert inv.date 0 inv.totalAmount m)
          m,
        0 ≤ e.2.1 ∧ 0 ≤ e.2.2
  | [], m, _, hm => by simpa using hm
  | inv :: rest, m, hinv, hm => by
      rw [List.foldl_cons]
      refine dataMap_go_nonneg rest _
        (fun i hi => hinv i (List.mem_cons_of_mem inv hi)) ?_
      cases inv.type with
      | SALE => exact mapUpsert_nonneg (hinv inv (List.mem_cons_self inv rest)) le_rfl m hm
      | PURCHASE => exact mapUpsert_nonneg le_rfl (hinv inv (List.mem_cons_self inv rest)) m hm

/-- All buckets of `dataMap` are non-negative when the invoice amounts
are. -/
theorem dataMap_nonneg (invoices : List Invoice)
    (h : ∀ inv ∈ invoices, 0 ≤ inv.totalAmount) :
    ∀ e ∈ Dashboard.dataMap invoices, 0 ≤ e.2.1 ∧ 0 ≤ e.2.2 :=
  dataMap_go_nonneg invoices [] h (by simp)

/-- Every point of the grouped financial series is historical: real
`sales`/`purchases` values, a null `estimated`, and (with non-negative
transaction totals) a non-negative sales value. -/
theorem finSorted_shape (invoices : List Invoice)
    (h : ∀ inv ∈ invoices, 0 ≤ inv.totalAmount) :
    ∀ pt ∈ Dashboard.finSorted invoices,
      pt.estimated = none ∧
        ∃ sv pv : ℚ, pt.sales = some sv ∧ pt.purchases = some pv ∧ 0 ≤ sv := by
  intro pt hpt
  rw [Dashboard.finSorted, mem_sortByDate, Dashboard.toFinPoints] at hpt
  obtain ⟨e, he, rfl⟩ := List.mem_map.mp hpt
  exact ⟨rfl, e.2.1, e.2.2, rfl, rfl, (dataMap_nonneg invoices h e he).1⟩

/-- Every point of the grouped per-product series is historical: a real
quantity and a null `estimated`. -/
theorem prodSorted_shape (pid : String) (invoices : List Invoice) :
    ∀ pt ∈ ProductAnalytics.prodSorted pid invoices,
      pt.estimated = none ∧ ∃ rv : Int, pt.real = some rv := by
  intro pt hpt
  rw [ProductAnalytics.prodSorted, mem_sortByDate,
    ProductAnalytics.toProdPoints] at hpt
  obtain ⟨e, he, rfl⟩ := List.mem_map.mp hpt
  exact ⟨rfl, e.2, rfl⟩

/-- Marking the join point rewrites the last element of the series, in
place, with its own `sales` value duplicated into `estimated`. -/
theorem setLastEstimated_eq (x : Dashboard.FinPoint) :
    ∀ (cd : List Dashboard.FinPoint), cd.getLast? = some x →
      Dashboard.setLastEstimated cd
        = cd.dropLast ++ [{ x with estimated := x.sales }]
  | [], h => by simp at h
  | [y], h => by
      obtain rfl : y = x := by simpa using h
      rfl
  | y :: z :: zs, h => by
      rw [List.getLast?_cons_cons] at h
      rw [show Dashboard.setLastEstimated (y :: z :: zs)
            = y :: Dashboard.setLastEstimated (z :: zs) from rfl,
        setLastEstimated_eq x (z :: zs) h, List.dropLast_cons₂, List.cons_append]

/-- Per-product version of `setLastEstimated_eq`. -/
theorem setLastEstimatedP_eq (x : ProductAnalytics.ProdPoint) :
    ∀ (cd : List ProductAnalytics.ProdPoint), cd.getLast? = some x →
      ProductAnalytics.setLastEstimatedP cd
        = cd.dropLast ++ [{ x with estimated := x.real }]
  | [], h => by simp at h
  | [y], h => by
      obtain rfl : y = x := by simpa using h
      rfl
  | y :: z :: zs, h => by
      rw [List.getLast?_cons_cons] at h
      rw [show ProductAnalytics.setLastEstimatedP (y :: z :: zs)
            = y :: ProductAnalytics.setLastEstimatedP (z :: zs) from rfl,
        setLastEstimatedP_eq x (z :: zs) h, List.dropLast_cons₂, List.cons_append]

/-- The synthetic financial points, elementwise. -/
theorem finFuture_get (rnd : ℕ → ℚ) (avg : ℚ) (lastDate : Int) (i : ℕ)
    (h : i < (Dashboard.finFuture rnd avg lastDate).length) :
    (Dashboard.finFuture rnd avg lastDate).get ⟨i, h⟩
      = { date := lastDate + (i + 1 : ℕ), sales := none, purchases := none,
          estimated := some ((jsRound (avg * (1 + (rnd i * (2 / 10) - 1 / 10))) : Int) : ℚ) } := by
  simp [Dashboard.finFuture]

/-- The synthetic per-product points, elementwise. -/
theorem prodFuture_get (rnd : ℕ → ℚ) (avg : ℚ) (lastDate : Int) (i : ℕ)
    (h : i < (ProductAnalytics.prodFuture rnd avg lastDate).length) :
    (ProductAnalytics.prodFuture rnd avg lastDate).get ⟨i, h⟩
      = { date := lastDate + (i + 1 : ℕ), real := none,
          estimated := some (max 0 (jsRound (avg + (rnd i * 2 - 1)))) } := by
  simp [ProductAnalytics.prodFuture]

/-- The `Math.round` of a non-negative rational is non-negative. -/
theorem jsRound_nonneg {q : ℚ} (h : 0 ≤ q) : 0 ≤ jsRound q :=
  Int.le_floor.mpr (by push_cast; linarith)

/-- The last-5 average of a series of non-negative sales values is
non-negative. -/
theorem avgSales_nonneg (cd : List Dashboard.FinPoint)
    (h : ∀ pt ∈ cd, ∃ sv, pt.sales = some sv ∧ 0 ≤ sv) :
    0 ≤ Dashboard.avgSales cd := by
  simp only [Dashboard.avgSales]
  apply div_nonneg
  · rw [foldl_sales_eq, zero_add]
    apply List.sum_nonneg
    intro v hv
    obtain ⟨pt, hpt, rfl⟩ := List.mem_map.mp hv
    rw [Dashboard.lastN] at hpt
    obtain ⟨sv, hsv, h0⟩ := h pt (List.drop_subset _ cd hpt)
    simpa [hsv] using h0
  · exact Nat.cast_nonneg _

/-- C5: whenever a projection is produced (and the ledger's invoice
amounts are non-negative, as every committed invoice's sum of
`quantity × unitPrice` line totals is, and the random oracle honours
`Math.random() ≥ 0`), the join point duplicates its own real value into
the projected field, exactly N synthetic future points follow it — one
per subsequent calendar day, N = 5 for the financial series and N = 4
for the per-product series — each carrying a non-negative rounded
projected value and null real fields, while every historical point
before the join point keeps a null projected value. -/
theorem spec_C5 (invoices : List Invoice) (pid : String) (now : Int)
    (tr : TimeRange) (rnd : ℕ → ℚ)
    (hrnd : ∀ i, 0 ≤ rnd i)
    (hamt : ∀ inv ∈ invoices, 0 ≤ inv.totalAmount) :
    (2 < (Dashboard.finFiltered invoices now tr).length →
      FinProjection (Dashboard.finFiltered invoices now tr)
        (Dashboard.generateChartData invoices now tr rnd)) ∧
    (1 < (ProductAnalytics.prodFiltered pid invoices now tr).length →
      ProdProjection (ProductAnalytics.prodFiltered pid invoices now tr)
        (ProductAnalytics.generateChartData pid invoices now tr rnd)) := by
  constructor
  · intro h2
    cases hlast : (Dashboard.finFiltered invoices now tr).getLast? with
    | none =>
        rw [List.getLast?_eq_none_iff] at hlast
        rw [hlast] at h2
        simp at h2
    | some x =>
        have hxmem : x ∈ Dashboard.finFiltered invoices now tr := by
          obtain ⟨hne, hxe⟩ := List.mem_getLast?_eq_getLast hlast
          rw [hxe]
          exact List.getLast_mem hne
        obtain ⟨hxe, sv, pv, hxs, hxp, hsv0⟩ :=
          finSorted_shape invoices hamt x (List.mem_of_mem_filter hxmem)
        have hcd_sales : ∀ pt ∈ Dashboard.finFiltered invoices now tr,
            ∃ s, pt.sales = some s ∧ 0 ≤ s := by
          intro pt hpt
          obtain ⟨-, s, p, hs, -, h0⟩ :=
            finSorted_shape invoices hamt pt (List.mem_of_mem_filter hpt)
          exact ⟨s, hs, h0⟩
        have havg0 : 0 ≤ Dashboard.avgSales (Dashboard.finFiltered invoices now tr) :=
          avgSales_nonneg _ hcd_sales
        refine ⟨{ x with estimated := x.sales },
          Dashboard.finFuture rnd
            (Dashboard.avgSales (Dashboard.finFiltered invoices now tr)) x.date,
          ?_, ?_, ⟨sv, hxs, hxs⟩, by simp [Dashboard.finFuture], ?_, ?_⟩
        · simp only [Dashboard.generateChartData]
          rw [if_pos h2, hlast]
          simp only [Option.map_some', Option.getD_some]
          rw [setLastEstimated_eq x _ hlast, List.append_assoc, List.singleton_append]
        · rw [← hxe]
          exact hlast
        · intro i h
          rw [finFuture_get]
          refine ⟨?_, rfl, rfl, jsRound _, ?_, rfl⟩
          · push_cast
            ring
          · refine jsRound_nonneg (mul_nonneg havg0 ?_)
            have h1 : 0 ≤ rnd i * (2 / 10) := mul_nonneg (hrnd i) (by norm_num)
            linarith
        · intro pt hpt
          exact (finSorted_shape invoices hamt pt
            (List.mem_of_mem_filter
              ((List.dropLast_sublist (Dashboard.finFiltered invoices now tr)).subset hpt))).1
  · intro h1
    cases hlast : (ProductAnalytics.prodFiltered pid invoices now tr).getLast? with
    | none =>
        rw [List.getLast?_eq_none_iff] at hlast
        rw [hlast] at h1
        simp at h1
    | some x =>
        have hxmem : x ∈ ProductAnalytics.prodFiltered pid invoices now tr := by
          obtain ⟨hne, hxe⟩ := List.mem_getLast?_eq_getLast hlast
          rw [hxe]
          exact List.getLast_mem hne
        obtain ⟨hxe, rv, hxr⟩ :=
          prodSorted_shape pid invoices x (List.mem_of_mem_filter hxmem)
        refine ⟨{ x with estimated := x.real },
          ProductAnalytics.prodFuture rnd
            (ProductAnalytics.prodAvg (ProductAnalytics.prodFiltered pid invoices now tr))
            x.date,
          ?_, ?_, ⟨rv, hxr, hxr⟩, by simp [ProductAnalytics.prodFuture], ?_, ?_⟩
        · simp only [ProductAnalytics.generateChartData]
          rw [if_pos h1, hlast]
          simp only [Option.map_some', Option.getD_some]
          rw [setLastEstimatedP_eq x _ hlast, List.append_assoc, List.singleton_append]
        · rw [← hxe]
          exact hlast
        · intro i h
          rw [prodFuture_get]
          refine ⟨?_, rfl, max 0 _, le_max_left 0 _, rfl⟩
          push_cast
          ring
        · intro pt hpt
          exact (prodSorted_shape pid invoices pt
            (List.mem_of_mem_filter
              ((List.dropLast_sublist
                (ProductAnalytics.prodFiltered pid invoices now tr)).subset hpt))).1

/-- C5 witness: the financial projection contract at a concrete history
with three recent sale days. -/
theorem spec_C5_witness :
    FinProjection (Dashboard.finFiltered demoInvsFin3 demoNow TimeRange.WEEK)
      (Dashboard.generateChartData demoInvsFin3 demoNow TimeRange.WEEK rnd0) :=
  (spec_C5 demoInvsFin3 "p" demoNow TimeRange.WEEK rnd0
    (fun _ => le_refl 0) (by decide)).1 (by decide)

end Minimarket
